import Mathlib

/-!
Verification development for the versioned document migration engine in
`source/blender/blenloader/intern/versioning_400.cc`.

The C++ data structures are shallowly embedded: node trees become
association lists of nodes and sockets addressed by stable numeric ids,
pointers become optional ids, C `float` values become exact rationals
(the source only ever compares them against the constants 0, 1, 2 and
`1 - threshold`), and in-place mutation becomes explicit state passing.
Enumeration constants whose numeric values live in headers outside this
tree (node type codes, socket type codes, math operation codes, blend
modes) are embedded as inductive types with one constructor per constant
used by the code plus a catch-all constructor; only equality of these
codes is ever observed by the embedded functions.

UI-only node fields (location, hidden flag, frame parent) are not
modelled: no migration decision reads them.
-/

namespace Versioning400

abbrev NodeId := Nat
abbrev SocketId := Nat

/-- Node type codes (`node->type`).  The concrete integer values live in
`BKE_node.h`, outside this tree; only equality against the listed
constants is used by the embedded code, so distinct constructors model
them faithfully.  `other` covers every unrecognized node kind. -/
inductive NodeType where
  | REROUTE
  | GROUP
  | BSDF_TRANSPARENT
  | MIX_SHADER
  | ADD_SHADER
  | BSDF_PRINCIPLED
  | EEVEE_SPECULAR
  | OUTPUT_MATERIAL
  | MATH
  | other (code : Nat)
deriving DecidableEq, Repr

/-- Socket type codes (`socket->type`); the code only distinguishes
`SOCK_RGBA` from everything else (read as float). -/
inductive SockType where
  | FLOAT
  | RGBA
  | other (code : Nat)
deriving DecidableEq, Repr

/-- Math node operation stored in `custom1`. -/
inductive MathOp where
  | GREATER_THAN
  | other (code : Nat)
deriving DecidableEq, Repr

/-- A link; `tosock` caches the incoming-link pointer of the target
socket, mirroring `bNodeSocket::link`. -/
structure Link where
  fromnode : Nat
  fromsock : Nat
  tonode : Nat
  tosock : Nat
deriving DecidableEq, Repr

/-- RGBA default value of a socket. -/
structure RGBA where
  r : Rat
  g : Rat
  b : Rat
  a : Rat
deriving DecidableEq, Repr

/-- A socket: name, type, cached incoming link (inputs only) and default
values (`version_cycles_node_socket_float_value` /
`..._rgba_value` read `fvalue` resp. `rgba`). -/
structure Socket where
  name : String
  stype : SockType
  link : Option Link
  fvalue : Rat
  rgba : RGBA
deriving DecidableEq, Repr

structure Node where
  ntype : NodeType
  custom1 : MathOp
  inputs : List SocketId
  outputs : List SocketId
deriving DecidableEq, Repr

/-- Association-list lookup by numeric id. -/
def lookupA {α : Type} : List (Nat × α) → Nat → Option α
  | [], _ => none
  | (k, v) :: rest, i => if k = i then some v else lookupA rest i

/-- Update the value stored under id `i` (all occurrences), leaving other
entries untouched; models an in-place write through a pointer. -/
def updAssoc {α : Type} (l : List (Nat × α)) (i : Nat) (f : α → α) : List (Nat × α) :=
  l.map (fun p => if p.1 = i then (p.1, f p.2) else p)

/-- A node tree.  `output_node` holds the result of
`version_eevee_output_node_get(ntree, SH_NODE_OUTPUT_MATERIAL)`.
Modelled from the spec: that helper is declared outside this tree; the
spec says the analyzer "only handles the closure tree from the output
node", so the designated output node is carried as part of the tree
state.  `nextNode`/`nextSocket` supply fresh ids for rewriter
primitives. -/
structure NodeTree where
  nodes : List (Nat × Node)
  sockets : List (Nat × Socket)
  output_node : Option Nat
  nextNode : Nat
  nextSocket : Nat
deriving DecidableEq, Repr

def nullSocket : Socket :=
  { name := "", stype := .FLOAT, link := none, fvalue := 0, rgba := ⟨0, 0, 0, 0⟩ }

def nullNode : Node :=
  { ntype := .other 0, custom1 := .other 0, inputs := [], outputs := [] }

def NodeTree.findNode (t : NodeTree) (i : NodeId) : Option Node :=
  lookupA t.nodes i

def NodeTree.findSocket (t : NodeTree) (i : SocketId) : Option Socket :=
  lookupA t.sockets i

/-- Total socket access; a missing id behaves as a default unconnected
socket (the C++ assumes these pointer dereferences succeed). -/
def NodeTree.socketOr (t : NodeTree) (i : SocketId) : Socket :=
  (t.findSocket i).getD nullSocket

def NodeTree.nodeOr (t : NodeTree) (i : NodeId) : Node :=
  (t.findNode i).getD nullNode

/-- Modelled from the spec: the blenkernel lookup
`nodeFindSocket(node, SOCK_IN, name)` is declared outside this tree; the
data model describes sockets as typed, named connection points, so the
lookup returns the id of the first input socket of the node carrying the
given name. -/
def nodeFindSocketIn (t : NodeTree) (n : Node) (name : String) : Option SocketId :=
  n.inputs.find? (fun sid => (t.socketOr sid).name == name)

/-- Modelled from the spec: `version_eevee_output_node_get` is declared
outside this tree; it yields the material output node the analyzer
starts from. -/
def version_eevee_output_node_get (t : NodeTree) : Option NodeId :=
  t.output_node

/-! ## AlphaSource (versioning_400.cc:353-444) -/

inductive AlphaState where
  /-- Alpha input is 0. -/
  | ALPHA_OPAQUE
  /-- Alpha input is 1. -/
  | ALPHA_FULLY_TRANSPARENT
  /-- Alpha is between 0 and 1, from a graph input or one blending operation. -/
  | ALPHA_SEMI_TRANSPARENT
  /-- Alpha is unknown and the result of more than one blending operation. -/
  | ALPHA_COMPLEX_MIX
deriving DecidableEq, Repr

/-- `struct AlphaSource`: socket that is the source of the potential
semi-transparency, state, and whether the socket is transparency
(`1 - alpha`) rather than alpha. -/
structure AlphaSource where
  socket : Option SocketId
  state : AlphaState
  is_transparency : Bool
deriving DecidableEq, Repr

namespace AlphaSource

def alpha_source (fac : Option SocketId) (inverted : Bool := false) : AlphaSource :=
  ⟨fac, .ALPHA_SEMI_TRANSPARENT, inverted⟩

/-- The source names this constructor `opaque()`; that word is a Lean keyword. -/
def opaque_alpha : AlphaSource := ⟨none, .ALPHA_OPAQUE, false⟩

def fully_transparent (socket : Option SocketId := none) (inverted : Bool := false) :
    AlphaSource :=
  ⟨socket, .ALPHA_FULLY_TRANSPARENT, inverted⟩

def complex_alpha : AlphaSource := ⟨none, .ALPHA_COMPLEX_MIX, false⟩

def is_opaque (a : AlphaSource) : Bool := a.state == .ALPHA_OPAQUE

def is_fully_transparent (a : AlphaSource) : Bool := a.state == .ALPHA_FULLY_TRANSPARENT

def is_transparent (a : AlphaSource) : Bool := a.state != .ALPHA_OPAQUE

def is_semi_transparent (a : AlphaSource) : Bool := a.state == .ALPHA_SEMI_TRANSPARENT

def is_complex (a : AlphaSource) : Bool := a.state == .ALPHA_COMPLEX_MIX

/-- Combine two sources together with a blending parameter
(versioning_400.cc:411-427). -/
def mix (a b : AlphaSource) (fac : Option SocketId) : AlphaSource :=
  if a.is_complex || b.is_complex then
    complex_alpha
  else if a.is_semi_transparent || b.is_semi_transparent then
    complex_alpha
  else if a.is_fully_transparent && b.is_fully_transparent then
    fully_transparent
  else if a.is_opaque && b.is_opaque then
    opaque_alpha
  else
    /- Only one of them is fully transparent. -/
    alpha_source fac (!a.is_transparent)

/-- Combine two sources together with an additive blending parameter
(versioning_400.cc:430-443). -/
def add (a b : AlphaSource) : AlphaSource :=
  if a.is_complex || b.is_complex then
    complex_alpha
  else if a.is_semi_transparent && b.is_transparent then
    complex_alpha
  else if a.is_transparent && b.is_semi_transparent then
    complex_alpha
  else
    /- Either one of them is opaque or they are both opaque. -/
    if a.is_transparent then a else b

end AlphaSource

/-! ## versioning_eevee_alpha_source_get (versioning_400.cc:449-550)

The C++ recursion carries an increasing `depth` counter and bails out
with the complex state once `depth > 100`.  The embedding recurses
structurally on the remaining budget `fuel = 101 - depth`: `fuel = 0`
is exactly `depth > 100`, and every recursive call at `depth + 1`
becomes a call at `fuel - 1`. -/

def alpha_source_get_go (t : NodeTree) : Nat → SocketId → AlphaSource
  | 0, _ =>
    /- depth > 100: protection against infinite / very long recursion. -/
    AlphaSource.complex_alpha
  | fuel + 1, sid =>
    match (t.socketOr sid).link with
    | none =>
      /- Unconnected closure socket is always opaque black. -/
      AlphaSource.opaque_alpha
    | some link =>
      let node := t.nodeOr link.fromnode
      match node.ntype with
      | .REROUTE =>
        match node.inputs.get? 0 with
        | some s0 => alpha_source_get_go t fuel s0
        | none => AlphaSource.opaque_alpha
      | .GROUP => AlphaSource.complex_alpha
      | .BSDF_TRANSPARENT =>
        let sockId? := nodeFindSocketIn t node "Color"
        let sock := (sockId?.map t.socketOr).getD nullSocket
        match sock.link with
        | none =>
          if sock.rgba.r = 0 ∧ sock.rgba.g = 0 ∧ sock.rgba.b = 0 then
            AlphaSource.opaque_alpha
          else if sock.rgba.r = 1 ∧ sock.rgba.g = 1 ∧ sock.rgba.b = 1 then
            AlphaSource.fully_transparent sockId? true
          else
            AlphaSource.alpha_source sockId? true
        | some _ => AlphaSource.alpha_source sockId? true
      | .MIX_SHADER =>
        let facId? := nodeFindSocketIn t node "Fac"
        let fac := (facId?.map t.socketOr).getD nullSocket
        let src0 := match node.inputs.get? 1 with
          | some s => alpha_source_get_go t fuel s
          | none => AlphaSource.opaque_alpha
        let src1 := match node.inputs.get? 2 with
          | some s => alpha_source_get_go t fuel s
          | none => AlphaSource.opaque_alpha
        match fac.link with
        | none =>
          if fac.fvalue = 0 then src0
          else if fac.fvalue = 1 then src1
          else AlphaSource.mix src0 src1 facId?
        | some _ => AlphaSource.mix src0 src1 facId?
      | .ADD_SHADER =>
        let src0 := match node.inputs.get? 0 with
          | some s => alpha_source_get_go t fuel s
          | none => AlphaSource.opaque_alpha
        let src1 := match node.inputs.get? 1 with
          | some s => alpha_source_get_go t fuel s
          | none => AlphaSource.opaque_alpha
        AlphaSource.add src0 src1
      | .BSDF_PRINCIPLED =>
        let sockId? := nodeFindSocketIn t node "Alpha"
        let sock := (sockId?.map t.socketOr).getD nullSocket
        match sock.link with
        | none =>
          if sock.fvalue = 0 then AlphaSource.fully_transparent sockId?
          else if sock.fvalue = 1 then AlphaSource.opaque_alpha
          else AlphaSource.alpha_source sockId?
        | some _ => AlphaSource.alpha_source sockId?
      | .EEVEE_SPECULAR =>
        let sockId? := nodeFindSocketIn t node "Transparency"
        let sock := (sockId?.map t.socketOr).getD nullSocket
        match sock.link with
        | none =>
          if sock.fvalue = 0 then AlphaSource.fully_transparent sockId? true
          else if sock.fvalue = 1 then AlphaSource.opaque_alpha
          else AlphaSource.alpha_source sockId? true
        | some _ => AlphaSource.alpha_source sockId? true
      | _ =>
        /- default: any unrecognized node kind is opaque. -/
        AlphaSource.opaque_alpha

/-- `versioning_eevee_alpha_source_get(socket, depth)`: total by
construction (structural recursion on the remaining depth budget). -/
def versioning_eevee_alpha_source_get (t : NodeTree) (sid : SocketId) (depth : Nat := 0) :
    AlphaSource :=
  alpha_source_get_go t (101 - depth) sid

/-! ## Node-graph rewriter primitives

These are blenkernel helpers declared outside this tree; the spec's
§4.4 gives their contracts (remove_link removes the edge; add_link
replaces any existing incoming link of the target, inputs accepting at
most one link; add_node creates a node with its type's default
sockets). -/

def NodeTree.updateSocket (t : NodeTree) (i : SocketId) (f : Socket → Socket) : NodeTree :=
  { t with sockets := updAssoc t.sockets i f }

def NodeTree.setNodeCustom1 (t : NodeTree) (i : NodeId) (op : MathOp) : NodeTree :=
  { t with nodes := updAssoc t.nodes i (fun n => { n with custom1 := op }) }

/-- Modelled from the spec: `nodeRemLink` — the incoming link cached on
the link's target socket is cleared. -/
def nodeRemLink (t : NodeTree) (l : Link) : NodeTree :=
  t.updateSocket l.tosock (fun s => { s with link := none })

/-- Modelled from the spec: `nodeAddLink` — the target socket's incoming
link becomes the new edge (any previous incoming link is dropped, inputs
accept at most one link). -/
def nodeAddLink (t : NodeTree) (fromnode : NodeId) (fromsock : SocketId)
    (tonode : NodeId) (tosock : SocketId) : NodeTree :=
  t.updateSocket tosock (fun s => { s with link := some ⟨fromnode, fromsock, tonode, tosock⟩ })

/-- Modelled from the spec: `nodeAddNode(ntree, "ShaderNodeMath")` — a
math node is created with its type's default sockets: two float inputs
named "Value" and one float output "Value", at fresh ids.  Returns the
tree, the node id, the two input socket ids and the output socket id. -/
def addMathNode (t : NodeTree) : NodeTree × NodeId × SocketId × SocketId × SocketId :=
  let nid := t.nextNode
  let in1 := t.nextSocket
  let in2 := t.nextSocket + 1
  let out := t.nextSocket + 2
  let vsock : Socket := { name := "Value", stype := .FLOAT, link := none, fvalue := 0,
                          rgba := ⟨0, 0, 0, 0⟩ }
  let node : Node := { ntype := .MATH, custom1 := .other 0, inputs := [in1, in2],
                       outputs := [out] }
  ({ t with
      nodes := t.nodes ++ [(nid, node)],
      sockets := t.sockets ++ [(in1, vsock), (in2, vsock), (out, vsock)],
      nextNode := t.nextNode + 1,
      nextSocket := t.nextSocket + 3 },
   nid, in1, in2, out)

/-! ## versioning_eevee_material_blend_mode_settings (versioning_400.cc:560-643) -/

/-- Detects the alpha input of a material node-tree and converts the
input alpha to a step function, either statically or using a math node
when there is some value plugged in.  Returns false (bailing out with
the tree untouched) when the closure mixture mixes alpha more than
once. -/
def versioning_eevee_material_blend_mode_settings (t : NodeTree) (threshold : Rat) :
    Bool × NodeTree :=
  match version_eevee_output_node_get t with
  | none => (true, t)
  | some onid =>
    let output_node := t.nodeOr onid
    let alpha := match nodeFindSocketIn t output_node "Surface" with
      | some sid => versioning_eevee_alpha_source_get t sid
      | none => AlphaSource.opaque_alpha
    if alpha.is_complex then
      (false, t)
    else
      match alpha.socket with
      | none => (true, t)
      | some asid =>
        let asock := t.socketOr asid
        if threshold = 2 then
          /- is_opaque: drop any incoming link, set default value to opaque. -/
          let t1 := match asock.link with
            | some l => nodeRemLink t l
            | none => t
          let value : Rat := if alpha.is_transparency then 0 else 1
          let t2 :=
            if asock.stype = .RGBA then
              t1.updateSocket asid (fun s => { s with rgba := ⟨value, value, value, 1⟩ })
            else
              t1.updateSocket asid (fun s => { s with fvalue := value })
          (true, t2)
        else
          match asock.link with
          | some link =>
            /- Insert math node. -/
            let t1 := nodeRemLink t link
            let r := addMathNode t1
            let t2 := r.1
            let math_node := r.2.1
            let input_1 := r.2.2.1
            let input_2 := r.2.2.2.1
            let output := r.2.2.2.2
            let t3 := t2.setNodeCustom1 math_node .GREATER_THAN
            let t4 := nodeAddLink t3 link.fromnode link.fromsock math_node input_1
            let t5 := nodeAddLink t4 math_node output link.tonode link.tosock
            let t6 := t5.updateSocket input_2 (fun s =>
              { s with fvalue := if alpha.is_transparency then 1 - threshold else threshold })
            (true, t6)
          | none =>
            /- Modify alpha value directly. -/
            if asock.stype = .RGBA then
              let dv := asock.rgba
              let sum := dv.r + dv.g + dv.b
              /- Don't do the division if possible to avoid float imprecision. -/
              let avg := if 3 ≤ sum then 1 else sum / 3
              let value : Rat :=
                if (if alpha.is_transparency then 1 - threshold < avg else threshold < avg)
                then 1 else 0
              (true, t.updateSocket asid (fun s => { s with rgba := ⟨value, value, value, 1⟩ }))
            else
              let value : Rat :=
                if (if alpha.is_transparency then 1 - threshold < asock.fvalue
                    else threshold < asock.fvalue)
                then 1 else 0
              (true, t.updateSocket asid (fun s => { s with fvalue := value }))

/-! ## The per-material conversion loop (versioning_400.cc:844-891)

The loop body touches only the material at hand, so the block is a map
over the material list, accumulating report messages. -/

/-- `Material::blend_method` values read by the loop. -/
inductive BlendMethod where
  | CLIP
  | HASHED
  | BLEND
  | other (code : Nat)
deriving DecidableEq, Repr

/-- `Material::blend_shadow` values read by the loop. -/
inductive BlendShadow where
  | NONE
  | SOLID
  | CLIP
  | HASHED
  | other (code : Nat)
deriving DecidableEq, Repr

structure Material where
  name : String
  use_nodes : Bool
  nodetree : Option NodeTree
  blend_method : BlendMethod
  blend_shadow : BlendShadow
  alpha_threshold : Rat
deriving DecidableEq, Repr

/-- A report message handed to `BLO_reportf_wrap`. -/
structure Report where
  warning : Bool
  message : String
deriving DecidableEq, Repr

/-- One iteration of the material loop at versioning_400.cc:850-889:
returns the (possibly rewritten) material and the reports it emitted. -/
def version_material_convert_blend_mode (m : Material) : Material × List Report :=
  match m.nodetree with
  | none => (m, [])
  | some tree =>
    if !m.use_nodes then (m, [])
    else if m.blend_method = .HASHED ∨ m.blend_method = .BLEND then
      /- Compatible modes. Nothing to change. -/
      (m, [])
    else if (m.blend_shadow = .CLIP ∧ m.blend_method ≠ .CLIP) ∨ m.blend_shadow = .HASHED then
      /- blend_shadow NONE and SOLID fall through to the conversion. -/
      (m, [⟨true, "Couldn't convert material " ++ m.name ++
             " because of different Blend Mode and Shadow Mode"⟩])
    else
      let threshold := if m.blend_method = .CLIP then m.alpha_threshold else 2
      let r := versioning_eevee_material_blend_mode_settings tree threshold
      ({ m with nodetree := some r.2 },
       if r.1 then []
       else [⟨true, "Couldn't convert material " ++ m.name ++
               " because of non-trivial alpha blending"⟩])

/-- The whole 402,51 block over the material list (run only when the
first scene uses the legacy EEVEE engine). -/
def versioning_eevee_blend_mode_block (scene_uses_eevee_legacy : Bool)
    (materials : List Material) : List Material × List Report :=
  if scene_uses_eevee_legacy then
    (materials.map (fun m => (version_material_convert_blend_mode m).1),
     (materials.map (fun m => (version_material_convert_blend_mode m).2)).flatten)
  else
    (materials, [])

/-! ## Socket interface data model

`bNodeTreeInterfaceSocket` fields read or written by the migration code;
flag bits (`NODE_INTERFACE_SOCKET_INPUT/OUTPUT/HIDE_VALUE/
HIDE_IN_MODIFIER`) are modelled as booleans, opaque owned payloads
(default value block, IDProperty) as optional tokens. -/

structure InterfaceSocket where
  name : String
  identifier : String
  description : String
  socket_type : String
  is_input : Bool
  is_output : Bool
  hide_value : Bool
  hide_in_modifier : Bool
  attribute_domain : Nat
  default_attribute_name : Option String
  socket_data : Option Nat
  properties : Option Nat
deriving DecidableEq, Repr

/-- An interface item: a socket declaration or a panel grouping child
items.  A panel carries its `NODE_INTERFACE_PANEL_ALLOW_SOCKETS_AFTER_PANELS`
flag bit and its ordered `items_array`. -/
inductive InterfaceItem where
  | socket (s : InterfaceSocket)
  | panel (allow_sockets_after_panels : Bool) (items : List InterfaceItem)

mutual

/-- Decidable equality for the nested inductive (the deriving handler
does not cover nested occurrences in this Lean version). -/
def InterfaceItem.decEq : (a b : InterfaceItem) → Decidable (a = b)
  | .socket x, .socket y =>
    if h : x = y then .isTrue (by rw [h])
    else .isFalse (by intro c; injection c; contradiction)
  | .socket _, .panel _ _ => .isFalse (by intro c; exact InterfaceItem.noConfusion c)
  | .panel _ _, .socket _ => .isFalse (by intro c; exact InterfaceItem.noConfusion c)
  | .panel f1 l1, .panel f2 l2 =>
    if hf : f1 = f2 then
      match InterfaceItem.decEqList l1 l2 with
      | .isTrue hl => .isTrue (by rw [hf, hl])
      | .isFalse hl => .isFalse (by intro c; injection c with c1 c2; exact hl c2)
    else .isFalse (by intro c; injection c with c1 c2; exact hf c1)

def InterfaceItem.decEqList : (a b : List InterfaceItem) → Decidable (a = b)
  | [], [] => .isTrue rfl
  | [], _ :: _ => .isFalse (by intro c; exact List.noConfusion c)
  | _ :: _, [] => .isFalse (by intro c; exact List.noConfusion c)
  | x :: xs, y :: ys =>
    match InterfaceItem.decEq x y, InterfaceItem.decEqList xs ys with
    | .isTrue h1, .isTrue h2 => .isTrue (by rw [h1, h2])
    | .isFalse h1, _ => .isFalse (by intro c; injection c with c1 c2; exact h1 c1)
    | .isTrue _, .isFalse h2 => .isFalse (by intro c; injection c with c1 c2; exact h2 c2)

end

instance : DecidableEq InterfaceItem := InterfaceItem.decEq

def itemIsPanel : InterfaceItem → Bool
  | .panel _ _ => true
  | .socket _ => false

/-- `items[i]->item_type == NODE_INTERFACE_PANEL`, false out of range. -/
def isPanelAt (items : List InterfaceItem) (i : Nat) : Bool :=
  match items.get? i with
  | some it => itemIsPanel it
  | none => false

/-! ## Legacy socket-list conversion (versioning_400.cc:1898-1986) -/

/-- The subtype → base type idname table
(`legacy_socket_idname_to_socket_type`, versioning_400.cc:1902-1917). -/
def subtypes_map : List (String × String) :=
  [("NodeSocketFloatUnsigned", "NodeSocketFloat"),
   ("NodeSocketFloatPercentage", "NodeSocketFloat"),
   ("NodeSocketFloatFactor", "NodeSocketFloat"),
   ("NodeSocketFloatAngle", "NodeSocketFloat"),
   ("NodeSocketFloatTime", "NodeSocketFloat"),
   ("NodeSocketFloatTimeAbsolute", "NodeSocketFloat"),
   ("NodeSocketFloatDistance", "NodeSocketFloat"),
   ("NodeSocketIntUnsigned", "NodeSocketInt"),
   ("NodeSocketIntPercentage", "NodeSocketInt"),
   ("NodeSocketIntFactor", "NodeSocketInt"),
   ("NodeSocketVectorTranslation", "NodeSocketVector"),
   ("NodeSocketVectorDirection", "NodeSocketVector"),
   ("NodeSocketVectorVelocity", "NodeSocketVector"),
   ("NodeSocketVectorAcceleration", "NodeSocketVector"),
   ("NodeSocketVectorEuler", "NodeSocketVector"),
   ("NodeSocketVectorXYZ", "NodeSocketVector")]

def legacy_socket_idname_to_socket_type (idname : String) : String :=
  match subtypes_map.find? (fun pair => pair.1 == idname) with
  | some pair => pair.2
  | none =>
    /- Unchanged socket idname. -/
    idname

inductive SockInOut where
  | SOCK_IN
  | SOCK_OUT
deriving DecidableEq, Repr

/-- A legacy flat-list `bNodeSocket` as read by
`legacy_socket_move_to_interface`: the hide flag bits of `flag` are
booleans, the stolen owned pointers optional tokens. -/
structure LegacyBNodeSocket where
  name : String
  identifier : String
  description : String
  idname : String
  hide_value : Bool
  hide_in_modifier : Bool
  attribute_domain : Nat
  default_attribute_name : Option String
  default_value : Option Nat
  prop : Option Nat
deriving DecidableEq, Repr

/-- `legacy_socket_move_to_interface` (versioning_400.cc:1927-1964):
the new interface socket built from a legacy socket. -/
def legacy_socket_move_to_interface (legacy_socket : LegacyBNodeSocket)
    (in_out : SockInOut) : InterfaceSocket :=
  { name := legacy_socket.name,
    identifier := legacy_socket.identifier,
    description := legacy_socket.description,
    socket_type := legacy_socket_idname_to_socket_type legacy_socket.idname,
    is_input := in_out = .SOCK_IN,
    is_output := in_out = .SOCK_OUT,
    hide_value := legacy_socket.hide_value,
    hide_in_modifier := legacy_socket.hide_in_modifier,
    attribute_domain := legacy_socket.attribute_domain,
    default_attribute_name := legacy_socket.default_attribute_name,
    socket_data := legacy_socket.default_value,
    properties := legacy_socket.prop }

/-- The interface-relevant state of a node tree: the two legacy flat
lists and the hierarchical root panel's item array. -/
structure NtreeInterfaceState where
  inputs_legacy : List LegacyBNodeSocket
  outputs_legacy : List LegacyBNodeSocket
  root_items : List InterfaceItem

/-- `versioning_convert_node_tree_socket_lists_to_interface`
(versioning_400.cc:1966-1986): the root item array is filled by two
indexed loops, outputs first at indices `0..num_outputs`, then inputs at
`num_outputs..`; the successive indexed writes are rendered as
appends. -/
def versioning_convert_node_tree_socket_lists_to_interface (nt : NtreeInterfaceState) :
    NtreeInterfaceState :=
  /- Convert outputs first to retain old outputs/inputs ordering. -/
  let arr1 := nt.outputs_legacy.foldl
    (fun acc s => acc ++ [InterfaceItem.socket (legacy_socket_move_to_interface s .SOCK_OUT)]) []
  let arr2 := nt.inputs_legacy.foldl
    (fun acc s => acc ++ [InterfaceItem.socket (legacy_socket_move_to_interface s .SOCK_IN)]) arr1
  { nt with root_items := arr2 }

/-! ## Dual-role socket split (versioning_400.cc:2148-2255, 2989-3010) -/

/-- `version_copy_socket` (versioning_400.cc:2148-2165): is applied to a
bitwise duplicate of `src`, re-copying the displayable attributes and
installing the freshly minted identifier. -/
def version_copy_socket (dst src : InterfaceSocket) (identifier : String) : InterfaceSocket :=
  { dst with
    name := src.name,
    description := src.description,
    socket_type := src.socket_type,
    default_attribute_name := src.default_attribute_name,
    identifier := identifier,
    properties := src.properties,
    socket_data := src.socket_data }

/-- `version_nodes_find_valid_insert_position_for_item`
(versioning_400.cc:2167-2209).  Positions are `int`s in the source, so
the argument stays an `Int` here. -/
def version_nodes_find_valid_insert_position_for_item
    (panel_allow_sockets_after_panels : Bool) (items : List InterfaceItem)
    (item : InterfaceItem) (initial_pos : Int) : Int :=
  let sockets_above_panels := !panel_allow_sockets_after_panels
  if sockets_above_panels then
    if itemIsPanel item then
      /- Find the closest valid position from the end, only panels at or
         after the position: scanning down from the last index, the first
         non-panel index at or after `initial_pos` puts the insert right
         after it. -/
      match (List.range items.length).reverse.find?
          (fun (i : Nat) => decide (initial_pos ≤ (i : Int)) && !(isPanelAt items i)) with
      | some i => (i : Int) + 1
      | none => initial_pos
    else
      /- Find the closest valid position from the start, no panels at or
         after the position: the first panel index at or before
         `initial_pos` becomes the insert position. -/
      match (List.range items.length).find?
          (fun (i : Nat) => decide ((i : Int) ≤ initial_pos) && isPanelAt items i) with
      | some i => (i : Int)
      | none => initial_pos
  else
    initial_pos

/-- `version_nodes_insert_item` (versioning_400.cc:2211-2230): constrain
the position, clamp it into `0..items_num`, and splice the new item
in. -/
def version_nodes_insert_item (panel_allow_sockets_after_panels : Bool)
    (items : List InterfaceItem) (socket_item : InterfaceItem) (position : Int) :
    List InterfaceItem :=
  let position := version_nodes_find_valid_insert_position_for_item
    panel_allow_sockets_after_panels items socket_item position
  let position := (min (max position 0) (items.length : Int)).toNat
  items.take position ++ [socket_item] ++ items.drop position

/-- `version_node_group_split_socket` (versioning_400.cc:2233-2255)
together with its call site (versioning_400.cc:3004-3008): `p` is
`find_item_position(socket)`, the index of the dual-role socket inside
its parent, and the insert position passed down is `p + 1`.  The C++
mutates the two socket records in place after the insertion; here the
updated records are written back (the insert-position computation only
looks at item kinds, which the flag writes do not change). -/
def version_node_group_split_socket (next_uid : Nat)
    (parent_allow_sockets_after_panels : Bool) (items : List InterfaceItem) (p : Nat) :
    List InterfaceItem × Nat :=
  match items.get? p with
  | some (.socket socket) =>
    /- Generate a new unique identifier. -/
    let dst_identifier := "Socket_" ++ toString next_uid
    let csocket := version_copy_socket socket socket dst_identifier
    /- Original socket becomes output, copied socket becomes input. -/
    let original := { socket with is_input := false }
    let csocket := { csocket with is_output := false }
    let base := items.set p (.socket original)
    (version_nodes_insert_item parent_allow_sockets_after_panels base
       (.socket csocket) ((p : Int) + 1),
     next_uid + 1)
  | _ => (items, next_uid)

/-! ## Interface sort pass (versioning_400.cc:2257-2291, 3174-3179) -/

/-- The comparator handed to `std::stable_sort`: true if item `a` should
be above item `b` (sockets above panels; among sockets, outputs above
inputs). -/
def item_compare (a b : InterfaceItem) : Bool :=
  match a, b with
  | .socket sa, .socket sb => sa.is_output && !sb.is_output
  | .socket _, .panel _ _ => true
  | .panel _ _, .socket _ => false
  | .panel _ _, .panel _ _ => false

/-- Stable insertion: the new element goes right before the first
element it must be above, hence after every element it ties with. -/
def insertStable {α : Type} (lt : α → α → Bool) (a : α) : List α → List α
  | [] => [a]
  | b :: bs => if lt a b then a :: b :: bs else b :: insertStable lt a bs

/-- Stable sort by insertion, processing the list left to right; for a
strict-weak-order comparator this produces the same list as
`std::stable_sort`. -/
def sortStable {α : Type} (lt : α → α → Bool) (l : List α) : List α :=
  l.foldl (fun acc a => insertStable lt a acc) []

mutual

/-- `versioning_node_group_sort_sockets_recursive`: sorts a panel's
direct children with `item_compare` and recurses into child panels.  The
C++ sorts a level before recursing into it; recursing first (as the
structural recursion here does) yields the same tree, since
`item_compare` never looks below the items it compares. -/
def versioning_node_group_sort_sockets_recursive : InterfaceItem → InterfaceItem
  | .socket s => .socket s
  | .panel f children =>
    .panel f (sortStable item_compare (sort_items_each children))

/-- The recursion of the sort pass over a panel's item list. -/
def sort_items_each : List InterfaceItem → List InterfaceItem
  | [] => []
  | it :: rest => versioning_node_group_sort_sockets_recursive it :: sort_items_each rest

end

/-! ## Version gate (spec §4.1; versioning_400.cc:2894, 3360) -/

/-- The stored (major, minor) version tag (`Main::versionfile`,
`Main::subversionfile`). -/
structure VersionTag where
  major : Nat
  minor : Nat
deriving DecidableEq, Repr

/-- Modelled from the spec: `MAIN_VERSION_FILE_ATLEAST(bmain, M, m)` is
a macro defined outside this tree; §4.1 describes the gate as
`at_least(major, minor)`, true when the stored tag is not strictly below
`(M, m)` in lexicographic order. -/
def VersionTag.at_least (t : VersionTag) (M m : Nat) : Bool :=
  (M < t.major) || (t.major == M && m ≤ t.minor)

/-- The stored tag lies strictly below the guard `(M, m)`. -/
def VersionTag.strictlyBelow (t : VersionTag) (M m : Nat) : Prop :=
  t.major < M ∨ (t.major = M ∧ t.minor < m)

instance (t : VersionTag) (M m : Nat) : Decidable (t.strictlyBelow M m) := by
  unfold VersionTag.strictlyBelow; infer_instance

/-- Guard of the socket-list conversion block (versioning_400.cc:2894):
`!MAIN_VERSION_FILE_ATLEAST(bmain, 400, 20)`. -/
def runs_socket_list_conversion_block (t : VersionTag) : Bool :=
  !(t.at_least 400 20)

/-- Guard of the subtype-idname fix block (versioning_400.cc:3360):
`MAIN_VERSION_FILE_ATLEAST(bmain, 400, 20) &&
!MAIN_VERSION_FILE_ATLEAST(bmain, 401, 11)`. -/
def runs_subtype_idname_fix_block (t : VersionTag) : Bool :=
  t.at_least 400 20 && !(t.at_least 401 11)

/-! ## Rank view of the sort comparator

`item_compare a b` holds exactly when `a`'s rank is smaller:
output sockets (0), then input sockets (1), then panels (2). -/

def itemRank : InterfaceItem → Nat
  | .socket s => if s.is_output then 0 else 1
  | .panel _ _ => 2

/-! ## Concrete inputs used by witnesses -/

/-- An empty node tree. -/
def emptyTree : NodeTree :=
  { nodes := [], sockets := [], output_node := none, nextNode := 0, nextSocket := 0 }

/-- A material output node whose Surface socket is unconnected. -/
def treeUnconnected : NodeTree :=
  { nodes := [(1, { ntype := .OUTPUT_MATERIAL, custom1 := .other 0, inputs := [10],
                    outputs := [] })],
    sockets := [(10, { name := "Surface", stype := .other 5, link := none, fvalue := 0,
                       rgba := ⟨0, 0, 0, 1⟩ })],
    output_node := some 1, nextNode := 2, nextSocket := 11 }

/-- Scenario 4: a principled BSDF whose Alpha input is driven by a
texture output, feeding the material output's Surface socket. -/
def treePrincipledDriven : NodeTree :=
  { nodes := [(1, { ntype := .OUTPUT_MATERIAL, custom1 := .other 0, inputs := [10],
                    outputs := [] }),
              (2, { ntype := .BSDF_PRINCIPLED, custom1 := .other 0, inputs := [20],
                    outputs := [21] }),
              (3, { ntype := .other 99, custom1 := .other 0, inputs := [], outputs := [30] })],
    sockets := [(10, { name := "Surface", stype := .other 5,
                       link := some ⟨2, 21, 1, 10⟩, fvalue := 0, rgba := ⟨0, 0, 0, 1⟩ }),
                (20, { name := "Alpha", stype := .FLOAT,
                       link := some ⟨3, 30, 2, 20⟩, fvalue := 1, rgba := ⟨0, 0, 0, 1⟩ }),
                (21, { name := "BSDF", stype := .other 5, link := none, fvalue := 0,
                       rgba := ⟨0, 0, 0, 1⟩ }),
                (30, { name := "Color", stype := .FLOAT, link := none, fvalue := 0,
                       rgba := ⟨0, 0, 0, 1⟩ })],
    output_node := some 1, nextNode := 4, nextSocket := 100 }

/-- A nested group feeding the Surface socket: the analyzer bails out
with the complex state on groups. -/
def treeGroupComplex : NodeTree :=
  { nodes := [(1, { ntype := .OUTPUT_MATERIAL, custom1 := .other 0, inputs := [10],
                    outputs := [] }),
              (2, { ntype := .GROUP, custom1 := .other 0, inputs := [], outputs := [21] })],
    sockets := [(10, { name := "Surface", stype := .other 5,
                       link := some ⟨2, 21, 1, 10⟩, fvalue := 0, rgba := ⟨0, 0, 0, 1⟩ }),
                (21, { name := "Group out", stype := .other 5, link := none, fvalue := 0,
                       rgba := ⟨0, 0, 0, 1⟩ })],
    output_node := some 1, nextNode := 3, nextSocket := 100 }

/-- A material owning `treeGroupComplex`, with settings that reach the
conversion call. -/
def matComplex : Material :=
  { name := "MatComplex", use_nodes := true, nodetree := some treeGroupComplex,
    blend_method := .other 4, blend_shadow := .NONE, alpha_threshold := 1/2 }

/-- A material owning `treeUnconnected`. -/
def matUnconnected : Material :=
  { name := "MatPlain", use_nodes := true, nodetree := some treeUnconnected,
    blend_method := .other 4, blend_shadow := .SOLID, alpha_threshold := 1/2 }

/-- A material the loop skips (compatible blend mode). -/
def matSkipped : Material :=
  { name := "MatSkipped", use_nodes := true, nodetree := some emptyTree,
    blend_method := .BLEND, blend_shadow := .NONE, alpha_threshold := 1/2 }

/-- An interface socket flagged both input and output (the dual-role
corruption the split pass repairs). -/
def dualSocket : InterfaceSocket :=
  { name := "Value", identifier := "Socket_0", description := "", socket_type := "NodeSocketFloat",
    is_input := true, is_output := true, hide_value := false, hide_in_modifier := false,
    attribute_domain := 0, default_attribute_name := none, socket_data := some 7,
    properties := none }

/-- An ordinary output-only interface socket. -/
def outOnlySocket : InterfaceSocket :=
  { name := "Out", identifier := "Socket_9", description := "", socket_type := "NodeSocketFloat",
    is_input := false, is_output := true, hide_value := false, hide_in_modifier := false,
    attribute_domain := 0, default_attribute_name := none, socket_data := none,
    properties := none }

/-- A legacy flat-list socket named A. -/
def legacyA : LegacyBNodeSocket :=
  { name := "A", identifier := "Input_1", description := "input a",
    idname := "NodeSocketFloatFactor", hide_value := false, hide_in_modifier := true,
    attribute_domain := 2, default_attribute_name := some "attr", default_value := some 3,
    prop := none }

/-- A legacy flat-list socket named B. -/
def legacyB : LegacyBNodeSocket :=
  { name := "B", identifier := "Output_4", description := "output b",
    idname := "NodeSocketVector", hide_value := true, hide_in_modifier := false,
    attribute_domain := 0, default_attribute_name := none, default_value := some 9,
    prop := some 1 }

/-! ## Association-list lemmas -/

theorem lookupA_updAssoc {α : Type} (l : List (Nat × α)) (i : Nat) (f : α → α) (j : Nat) :
    lookupA (updAssoc l i f) j = if j = i then (lookupA l j).map f else lookupA l j := by
  induction l with
  | nil => simp [lookupA, updAssoc]
  | cons p rest ih =>
    obtain ⟨k, v⟩ := p
    show lookupA ((if k = i then (k, f v) else (k, v)) :: updAssoc rest i f) j
        = if j = i then (lookupA ((k, v) :: rest) j).map f else lookupA ((k, v) :: rest) j
    by_cases hk : k = i
    · rw [if_pos hk]
      subst hk
      by_cases hj : k = j
      · subst hj
        simp [lookupA]
      · have hj2 : ¬ j = k := fun h => hj h.symm
        simp only [lookupA, if_neg hj, ih, if_neg hj2]
    · rw [if_neg hk]
      by_cases hj : k = j
      · subst hj
        simp [lookupA, if_neg hk]
      · simp only [lookupA, if_neg hj, ih]

theorem lookupA_append_of_none {α : Type} {l1 : List (Nat × α)} (l2 : List (Nat × α)) {i : Nat}
    (h : lookupA l1 i = none) : lookupA (l1 ++ l2) i = lookupA l2 i := by
  induction l1 with
  | nil => simp
  | cons p rest ih =>
    obtain ⟨k, v⟩ := p
    by_cases hk : k = i
    · simp [lookupA, hk] at h
    · simp [lookupA, hk] at h ⊢
      exact ih h

theorem lookupA_append_of_some {α : Type} {l1 : List (Nat × α)} (l2 : List (Nat × α))
    {i : Nat} {v : α} (h : lookupA l1 i = some v) : lookupA (l1 ++ l2) i = some v := by
  induction l1 with
  | nil => exact absurd h (by simp [lookupA])
  | cons p rest ih =>
    obtain ⟨k, w⟩ := p
    by_cases hk : k = i
    · simp only [lookupA, if_pos hk] at h
      simp only [List.cons_append, lookupA, if_pos hk]
      exact h
    · simp only [lookupA, if_neg hk] at h
      simp only [List.cons_append, lookupA, if_neg hk]
      exact ih h

theorem lookupA_eq_none_of_ge {α : Type} {l : List (Nat × α)} {n i : Nat}
    (h : ∀ p ∈ l, p.1 < n) (hi : n ≤ i) : lookupA l i = none := by
  induction l with
  | nil => rfl
  | cons p rest ih =>
    obtain ⟨k, v⟩ := p
    have hk : k < n := h (k, v) (by simp)
    have : k ≠ i := by omega
    simp [lookupA, this]
    exact ih (fun q hq => h q (by simp [hq]))

theorem lookupA_lt_of_some {α : Type} {l : List (Nat × α)} {n i : Nat} {v : α}
    (h : ∀ p ∈ l, p.1 < n) (hs : lookupA l i = some v) : i < n := by
  by_contra hge
  rw [lookupA_eq_none_of_ge h (by omega)] at hs
  exact Option.noConfusion hs

theorem updAssoc_append {α : Type} (l1 l2 : List (Nat × α)) (i : Nat) (f : α → α) :
    updAssoc (l1 ++ l2) i f = updAssoc l1 i f ++ updAssoc l2 i f := by
  simp [updAssoc]

theorem updAssoc_of_forall_ne {α : Type} {l : List (Nat × α)} {i : Nat} (f : α → α)
    (h : ∀ p ∈ l, p.1 ≠ i) : updAssoc l i f = l := by
  induction l with
  | nil => rfl
  | cons p rest ih =>
    have hp : p.1 ≠ i := h p (List.mem_cons_self p rest)
    have hrest := ih (fun q hq => h q (List.mem_cons_of_mem p hq))
    simp only [updAssoc, List.map_cons]
    rw [if_neg hp]
    exact congrArg (p :: .) hrest

/-! ## Claim C1 — the mix composition rule -/

/-- C1 counterexample: the claim says a semi-transparent operand mixed
with an opaque one yields a semi-transparent result driven by the
factor socket; `AlphaSource::mix` instead returns the complex state
whenever either operand is semi-transparent. -/
theorem C1_counterexample_semi_opaque :
    AlphaSource.mix (AlphaSource.alpha_source (some 0) false) AlphaSource.opaque_alpha
      (some 1) = AlphaSource.complex_alpha
    ∧ AlphaSource.complex_alpha.state ≠ AlphaState.ALPHA_SEMI_TRANSPARENT := by
  constructor
  · rfl
  · intro h
    exact AlphaState.noConfusion h

/-- C1 (amended): `AlphaSource::mix` is complex if either operand is
complex; complex if either operand is semi-transparent (whatever the
other operand is); fully-transparent if both are fully-transparent;
opaque if both are opaque; and otherwise (exactly one operand
fully-transparent, the other opaque) semi-transparent driven by the
factor socket, with the inversion flag set exactly when the second
operand is the transparent one. -/
theorem C1_mix_composition_rule (a b : AlphaSource) (fac : Option SocketId) :
    ((a.is_complex || b.is_complex) = true → AlphaSource.mix a b fac = AlphaSource.complex_alpha)
    ∧ ((a.is_semi_transparent || b.is_semi_transparent) = true →
        AlphaSource.mix a b fac = AlphaSource.complex_alpha)
    ∧ (a.state = .ALPHA_FULLY_TRANSPARENT → b.state = .ALPHA_FULLY_TRANSPARENT →
        AlphaSource.mix a b fac = AlphaSource.fully_transparent none false)
    ∧ (a.state = .ALPHA_OPAQUE → b.state = .ALPHA_OPAQUE →
        AlphaSource.mix a b fac = AlphaSource.opaque_alpha)
    ∧ (a.state = .ALPHA_FULLY_TRANSPARENT → b.state = .ALPHA_OPAQUE →
        AlphaSource.mix a b fac = AlphaSource.alpha_source fac false)
    ∧ (a.state = .ALPHA_OPAQUE → b.state = .ALPHA_FULLY_TRANSPARENT →
        AlphaSource.mix a b fac = AlphaSource.alpha_source fac true) := by
  obtain ⟨sa, stA, ta⟩ := a
  obtain ⟨sb, stB, tb⟩ := b
  cases stA <;> cases stB <;>
    simp [AlphaSource.mix, AlphaSource.is_complex, AlphaSource.is_semi_transparent,
      AlphaSource.is_fully_transparent, AlphaSource.is_opaque, AlphaSource.is_transparent,
      AlphaSource.complex_alpha, AlphaSource.fully_transparent, AlphaSource.opaque_alpha,
      AlphaSource.alpha_source]

/-- C1 witness: the amended rule evaluated at concrete operands —
fully-transparent mixed with opaque is driven by the factor socket
without inversion, opaque mixed with fully-transparent with
inversion. -/
theorem C1_mix_composition_rule_witness :
    AlphaSource.mix (AlphaSource.fully_transparent none false) AlphaSource.opaque_alpha
      (some 7) = AlphaSource.alpha_source (some 7) false
    ∧ AlphaSource.mix AlphaSource.opaque_alpha (AlphaSource.fully_transparent none false)
      (some 7) = AlphaSource.alpha_source (some 7) true :=
  ⟨(C1_mix_composition_rule (AlphaSource.fully_transparent none false)
      AlphaSource.opaque_alpha (some 7)).2.2.2.2.1 rfl rfl,
   (C1_mix_composition_rule AlphaSource.opaque_alpha
      (AlphaSource.fully_transparent none false) (some 7)).2.2.2.2.2 rfl rfl⟩

/-! ## Claim C7 — the analyzer algebra -/

/-- C7: the analyzer combination rules satisfy the algebra: `mix`
yields the same classification state in either operand order;
`add(opaque, opaque) = opaque`; `add` of two fully-transparent sources
is fully transparent; and a complex operand forces a complex result
for both `mix` and `add`. -/
theorem C7_analyzer_algebra (a b : AlphaSource) (fac : Option SocketId) :
    (AlphaSource.mix a b fac).state = (AlphaSource.mix b a fac).state
    ∧ AlphaSource.add AlphaSource.opaque_alpha AlphaSource.opaque_alpha
        = AlphaSource.opaque_alpha
    ∧ (a.state = .ALPHA_FULLY_TRANSPARENT → b.state = .ALPHA_FULLY_TRANSPARENT →
        (AlphaSource.add a b).state = .ALPHA_FULLY_TRANSPARENT)
    ∧ (a.is_complex = true →
        (AlphaSource.mix a b fac).state = .ALPHA_COMPLEX_MIX
        ∧ (AlphaSource.mix b a fac).state = .ALPHA_COMPLEX_MIX
        ∧ (AlphaSource.add a b).state = .ALPHA_COMPLEX_MIX
        ∧ (AlphaSource.add b a).state = .ALPHA_COMPLEX_MIX) := by
  obtain ⟨sa, stA, ta⟩ := a
  obtain ⟨sb, stB, tb⟩ := b
  cases stA <;> cases stB <;>
    simp [AlphaSource.mix, AlphaSource.add, AlphaSource.is_complex,
      AlphaSource.is_semi_transparent, AlphaSource.is_fully_transparent,
      AlphaSource.is_opaque, AlphaSource.is_transparent, AlphaSource.complex_alpha,
      AlphaSource.fully_transparent, AlphaSource.opaque_alpha, AlphaSource.alpha_source]

/-- C7 witness: the algebra evaluated at concrete sources. -/
theorem C7_analyzer_algebra_witness :
    (AlphaSource.add (AlphaSource.fully_transparent (some 3) true)
        (AlphaSource.fully_transparent none false)).state = .ALPHA_FULLY_TRANSPARENT
    ∧ (AlphaSource.mix AlphaSource.complex_alpha AlphaSource.opaque_alpha
        (some 2)).state = .ALPHA_COMPLEX_MIX :=
  ⟨(C7_analyzer_algebra (AlphaSource.fully_transparent (some 3) true)
      (AlphaSource.fully_transparent none false) none).2.2.1 rfl rfl,
   ((C7_analyzer_algebra AlphaSource.complex_alpha AlphaSource.opaque_alpha
      (some 2)).2.2.2 rfl).1⟩

/-! ## Claim C9 — the recursion depth cap -/

/-- C9: `versioning_eevee_alpha_source_get` is total — in this
embedding it recurses structurally on the remaining budget
`101 - depth`, which every recursive call of the C++ (at `depth + 1`)
strictly decreases — and every call with depth above the cap of 100
immediately returns the complex classification, on any graph,
cyclic or not. -/
theorem C9_depth_cap_complex (t : NodeTree) (sid : SocketId) (depth : Nat)
    (h : 100 < depth) :
    versioning_eevee_alpha_source_get t sid depth = AlphaSource.complex_alpha := by
  unfold versioning_eevee_alpha_source_get
  have : 101 - depth = 0 := by omega
  rw [this]
  rfl

/-- C9 witness: the cap evaluated on a concrete tree at depth 101. -/
theorem C9_depth_cap_complex_witness :
    100 < 101
    ∧ versioning_eevee_alpha_source_get emptyTree 0 101 = AlphaSource.complex_alpha :=
  ⟨by omega, C9_depth_cap_complex emptyTree 0 101 (by omega)⟩

/-! ## Claim C5 — the version gate -/

/-- C5 counterexample: the stored tag (400, 19) is strictly below the
guard (401, 11), yet the subtype-idname block at versioning_400.cc:3360
does not run for it (its guard also requires the tag to be at least
(400, 20)), so "a block runs iff the stored tag is strictly below the
block's guard tag" fails for that block. -/
theorem C5_counterexample_401_11_block :
    runs_subtype_idname_fix_block ⟨400, 19⟩ = false
    ∧ (VersionTag.mk 400 19).strictlyBelow 401 11 := by
  exact ⟨rfl, by decide⟩

/-- C5 (amended): a block guarded only by `!at_least(M, m)` — such as
the socket-list conversion block at (400, 20) — runs iff the stored tag
is strictly below (M, m); the subtype-idname block guarded at (401, 11)
runs iff the stored tag is not strictly below (400, 20) and strictly
below (401, 11).  Either way a block's guard interval is disjoint from
the tags written after it runs, so each block runs at most once per
load. -/
theorem C5_version_gate (t : VersionTag) :
    (runs_socket_list_conversion_block t = true ↔ t.strictlyBelow 400 20)
    ∧ (runs_subtype_idname_fix_block t = true ↔
        (¬ t.strictlyBelow 400 20 ∧ t.strictlyBelow 401 11)) := by
  obtain ⟨M, m⟩ := t
  simp [runs_socket_list_conversion_block, runs_subtype_idname_fix_block,
    VersionTag.at_least, VersionTag.strictlyBelow]
  omega

/-! ## Claims C2, C6, C10 — the blend-mode conversion -/

/-- C2: for a surface classification that is semi-transparent with a
driving socket carrying an incoming link, and threshold not 2 (the
not-fully-opaque case), the conversion succeeds and rewires the graph:
exactly one math node is appended, in GREATER_THAN mode, the original
link is replaced so that its source feeds the math node's first input
and the math node's output feeds the driving socket, and the math
node's second input is set to the threshold (1 - threshold when the
driving socket has inverted, transparency, sense). -/
theorem C2_math_node_insertion
    (t : NodeTree) (threshold : Rat) (onid : NodeId) (ssid asid : SocketId)
    (inv : Bool) (L : Link)
    (hout : t.output_node = some onid)
    (hsurf : nodeFindSocketIn t (t.nodeOr onid) "Surface" = some ssid)
    (halpha : versioning_eevee_alpha_source_get t ssid
        = AlphaSource.alpha_source (some asid) inv)
    (hthr : threshold ≠ 2)
    (hlink : (t.socketOr asid).link = some L)
    (hto : L.tosock = asid)
    (hsfresh : ∀ p ∈ t.sockets, p.1 < t.nextSocket)
    (hnfresh : ∀ p ∈ t.nodes, p.1 < t.nextNode) :
    (versioning_eevee_material_blend_mode_settings t threshold).1 = true
    ∧ (versioning_eevee_material_blend_mode_settings t threshold).2.nodes
        = t.nodes ++ [(t.nextNode,
            { ntype := .MATH, custom1 := .GREATER_THAN,
              inputs := [t.nextSocket, t.nextSocket + 1],
              outputs := [t.nextSocket + 2] })]
    ∧ ((versioning_eevee_material_blend_mode_settings t threshold).2.socketOr
          t.nextSocket).link = some ⟨L.fromnode, L.fromsock, t.nextNode, t.nextSocket⟩
    ∧ ((versioning_eevee_material_blend_mode_settings t threshold).2.socketOr asid).link
        = some ⟨t.nextNode, t.nextSocket + 2, L.tonode, L.tosock⟩
    ∧ ((versioning_eevee_material_blend_mode_settings t threshold).2.socketOr
          (t.nextSocket + 1)).fvalue = (if inv then 1 - threshold else threshold) := by
  subst hto
  have hw : ∃ w, lookupA t.sockets L.tosock = some w := by
    unfold NodeTree.socketOr NodeTree.findSocket at hlink
    cases hv : lookupA t.sockets L.tosock with
    | none => rw [hv] at hlink; simp [nullSocket] at hlink
    | some w => exact ⟨w, rfl⟩
  obtain ⟨w, hw⟩ := hw
  have hlt : L.tosock < t.nextSocket := lookupA_lt_of_some hsfresh hw
  have hmain : versioning_eevee_material_blend_mode_settings t threshold
      = (true,
         (nodeAddLink
            (nodeAddLink
              ((addMathNode (nodeRemLink t L)).1.setNodeCustom1 t.nextNode
                MathOp.GREATER_THAN)
              L.fromnode L.fromsock t.nextNode t.nextSocket)
            t.nextNode (t.nextSocket + 2) L.tonode L.tosock).updateSocket
            (t.nextSocket + 1)
            (fun s => { s with fvalue := if inv then 1 - threshold else threshold })) := by
    simp only [versioning_eevee_material_blend_mode_settings, version_eevee_output_node_get,
      hout, hsurf, halpha, AlphaSource.alpha_source, AlphaSource.is_complex, hlink,
      if_neg hthr, addMathNode, nodeRemLink, nodeAddLink, NodeTree.setNodeCustom1,
      NodeTree.updateSocket,
      show (AlphaState.ALPHA_SEMI_TRANSPARENT == AlphaState.ALPHA_COMPLEX_MIX) = false
        from rfl]
    simp
  have hnone0 : lookupA t.sockets t.nextSocket = none :=
    lookupA_eq_none_of_ge hsfresh (le_refl _)
  have hnone1 : lookupA t.sockets (t.nextSocket + 1) = none :=
    lookupA_eq_none_of_ge hsfresh (by omega)
  have hA : ¬ (t.nextSocket = t.nextSocket + 1) := by omega
  have hB : ¬ (t.nextSocket = L.tosock) := by omega
  have hD : ¬ (L.tosock = t.nextSocket) := by omega
  have hE : ¬ (L.tosock = t.nextSocket + 1) := by omega
  have hG : ¬ (t.nextSocket + 1 = t.nextSocket) := by omega
  have hH : ¬ (t.nextSocket + 2 = t.nextSocket) := by omega
  have hI : ¬ (t.nextSocket + 1 = L.tosock) := by omega
  have hJ : ¬ (t.nextSocket + 2 = t.nextSocket + 1) := by omega
  refine ⟨by rw [hmain], ?_, ?_, ?_, ?_⟩
  · rw [hmain]
    simp only [nodeAddLink, NodeTree.updateSocket, NodeTree.setNodeCustom1, addMathNode,
      nodeRemLink]
    have h2 : updAssoc t.nodes t.nextNode
        (fun n => { n with custom1 := MathOp.GREATER_THAN }) = t.nodes :=
      updAssoc_of_forall_ne _ (fun p hp => Nat.ne_of_lt (hnfresh p hp))
    rw [updAssoc_append, h2]
    simp [updAssoc]
  all_goals {
    rw [hmain]
    simp [nodeAddLink, NodeTree.updateSocket, NodeTree.setNodeCustom1, addMathNode,
      nodeRemLink, NodeTree.socketOr, NodeTree.findSocket, lookupA_updAssoc, lookupA,
      lookupA_append_of_none, lookupA_append_of_some, hw, hnone0, hnone1,
      hA, hB, hD, hE, hG, hH, hI, hJ]
  }


/-- C6: when the analyzer classifies the surface socket as complex,
`versioning_eevee_material_blend_mode_settings` returns false with the
tree untouched, and the caller emits a warning naming the material
while converting every other material in the list as if the failing
one were absent — the load never aborts. -/
theorem C6_complex_is_skipped
    (t : NodeTree) (threshold : Rat) (onid ssid : Nat)
    (hout : t.output_node = some onid)
    (hsurf : nodeFindSocketIn t (t.nodeOr onid) "Surface" = some ssid)
    (hcomplex : (versioning_eevee_alpha_source_get t ssid).state
        = AlphaState.ALPHA_COMPLEX_MIX) :
    versioning_eevee_material_blend_mode_settings t threshold = (false, t)
    ∧ ∀ (m : Material) (pre post : List Material),
        m.nodetree = some t → m.use_nodes = true →
        ¬(m.blend_method = .HASHED ∨ m.blend_method = .BLEND) →
        ¬((m.blend_shadow = .CLIP ∧ m.blend_method ≠ .CLIP) ∨ m.blend_shadow = .HASHED) →
        versioning_eevee_blend_mode_block true (pre ++ m :: post)
          = ((versioning_eevee_blend_mode_block true pre).1
              ++ m :: (versioning_eevee_blend_mode_block true post).1,
             (versioning_eevee_blend_mode_block true pre).2
              ++ ⟨true, "Couldn't convert material " ++ m.name
                    ++ " because of non-trivial alpha blending"⟩
                 :: (versioning_eevee_blend_mode_block true post).2) := by
  have hAall : ∀ thr : Rat,
      versioning_eevee_material_blend_mode_settings t thr = (false, t) := by
    intro thr
    simp only [versioning_eevee_material_blend_mode_settings, version_eevee_output_node_get,
      hout, hsurf]
    simp [AlphaSource.is_complex, hcomplex]
  refine ⟨hAall threshold, ?_⟩
  intro m pre post hmtree hmuse h3 h4
  have hm : version_material_convert_blend_mode m
      = (m, [⟨true, "Couldn't convert material " ++ m.name
              ++ " because of non-trivial alpha blending"⟩]) := by
    have heta : ({ name := m.name, use_nodes := true, nodetree := some t,
                   blend_method := m.blend_method, blend_shadow := m.blend_shadow,
                   alpha_threshold := m.alpha_threshold } : Material) = m := by
      rw [← hmuse, ← hmtree]
    simp only [version_material_convert_blend_mode, hmtree, hmuse, Bool.not_true,
      Bool.false_eq_true, if_false, if_neg h3, if_neg h4,
      hAall (if m.blend_method = BlendMethod.CLIP then m.alpha_threshold else 2), heta]
  simp only [versioning_eevee_blend_mode_block, if_pos rfl, List.map_append, List.map_cons,
    hm, List.flatten_append, List.flatten_cons]
  simp

/-- C10: a socket with no incoming link is classified opaque at every
depth within the cap; in particular a material whose output node's
Surface socket is unconnected converts successfully — true result,
untouched tree, and no report from the per-material loop. -/
theorem C10_unconnected_socket_conversion :
    (∀ (t : NodeTree) (sid depth : Nat), depth ≤ 100 → (t.socketOr sid).link = none →
        versioning_eevee_alpha_source_get t sid depth = AlphaSource.opaque_alpha)
    ∧ (∀ (t : NodeTree) (threshold : Rat) (onid ssid : Nat),
        t.output_node = some onid →
        nodeFindSocketIn t (t.nodeOr onid) "Surface" = some ssid →
        (t.socketOr ssid).link = none →
        versioning_eevee_material_blend_mode_settings t threshold = (true, t))
    ∧ (∀ (m : Material) (t : NodeTree) (onid ssid : Nat),
        m.nodetree = some t → m.use_nodes = true →
        ¬(m.blend_method = .HASHED ∨ m.blend_method = .BLEND) →
        ¬((m.blend_shadow = .CLIP ∧ m.blend_method ≠ .CLIP) ∨ m.blend_shadow = .HASHED) →
        t.output_node = some onid →
        nodeFindSocketIn t (t.nodeOr onid) "Surface" = some ssid →
        (t.socketOr ssid).link = none →
        version_material_convert_blend_mode m = (m, [])) := by
  have part1 : ∀ (t : NodeTree) (sid depth : Nat), depth ≤ 100 →
      (t.socketOr sid).link = none →
      versioning_eevee_alpha_source_get t sid depth = AlphaSource.opaque_alpha := by
    intro t sid depth hd hnone
    unfold versioning_eevee_alpha_source_get
    have h : 101 - depth = (100 - depth) + 1 := by omega
    rw [h]
    simp [alpha_source_get_go, hnone]
  have part2 : ∀ (t : NodeTree) (threshold : Rat) (onid ssid : Nat),
      t.output_node = some onid →
      nodeFindSocketIn t (t.nodeOr onid) "Surface" = some ssid →
      (t.socketOr ssid).link = none →
      versioning_eevee_material_blend_mode_settings t threshold = (true, t) := by
    intro t threshold onid ssid hout hsurf hnone
    have hop := part1 t ssid 0 (by omega) hnone
    simp only [versioning_eevee_material_blend_mode_settings, version_eevee_output_node_get,
      hout, hsurf, hop]
    simp [AlphaSource.is_complex, AlphaSource.opaque_alpha]
  refine ⟨part1, part2, ?_⟩
  intro m t onid ssid hmtree hmuse h3 h4 hout hsurf hnone
  have heta : ({ name := m.name, use_nodes := true, nodetree := some t,
                 blend_method := m.blend_method, blend_shadow := m.blend_shadow,
                 alpha_threshold := m.alpha_threshold } : Material) = m := by
    rw [← hmuse, ← hmtree]
  simp only [version_material_convert_blend_mode, hmtree, hmuse, Bool.not_true,
    Bool.false_eq_true, if_false, if_neg h3, if_neg h4,
    part2 t (if m.blend_method = BlendMethod.CLIP then m.alpha_threshold else 2)
      onid ssid hout hsurf hnone, heta]
  simp


/-- C2 witness: scenario 4 — a principled BSDF whose Alpha is driven by
a texture output, migrated with threshold 0.5. -/
theorem C2_witness :
    (versioning_eevee_material_blend_mode_settings treePrincipledDriven (1/2)).1 = true
    ∧ (versioning_eevee_material_blend_mode_settings treePrincipledDriven (1/2)).2.nodes
        = treePrincipledDriven.nodes ++ [(4,
            { ntype := .MATH, custom1 := .GREATER_THAN, inputs := [100, 101],
              outputs := [102] })]
    ∧ ((versioning_eevee_material_blend_mode_settings treePrincipledDriven
          (1/2)).2.socketOr 100).link = some ⟨3, 30, 4, 100⟩
    ∧ ((versioning_eevee_material_blend_mode_settings treePrincipledDriven
          (1/2)).2.socketOr 20).link = some ⟨4, 102, 2, 20⟩
    ∧ ((versioning_eevee_material_blend_mode_settings treePrincipledDriven
          (1/2)).2.socketOr 101).fvalue = (if false then 1 - (1/2 : Rat) else 1/2) :=
  C2_math_node_insertion treePrincipledDriven (1/2) 1 10 20 false ⟨3, 30, 2, 20⟩
    rfl (by decide) (by decide) (by norm_num) (by decide) rfl (by decide) (by decide)

/-- C6 witness: a material whose tree feeds the surface from a nested
group (complex), sitting in a list next to another material. -/
theorem C6_witness :
    versioning_eevee_material_blend_mode_settings treeGroupComplex (1/2)
      = (false, treeGroupComplex)
    ∧ versioning_eevee_blend_mode_block true ([] ++ matComplex :: [matSkipped])
      = ((versioning_eevee_blend_mode_block true []).1
          ++ matComplex :: (versioning_eevee_blend_mode_block true [matSkipped]).1,
         (versioning_eevee_blend_mode_block true []).2
          ++ ⟨true, "Couldn't convert material " ++ matComplex.name
                ++ " because of non-trivial alpha blending"⟩
             :: (versioning_eevee_blend_mode_block true [matSkipped]).2) := by
  have h := C6_complex_is_skipped treeGroupComplex (1/2) 1 10 rfl (by decide) (by decide)
  exact ⟨h.1, h.2 matComplex [] [matSkipped] rfl rfl (by decide) (by decide)⟩

/-- C10 witness: the unconnected-surface material. -/
theorem C10_witness :
    versioning_eevee_alpha_source_get treeUnconnected 10 0 = AlphaSource.opaque_alpha
    ∧ versioning_eevee_material_blend_mode_settings treeUnconnected (1/2)
        = (true, treeUnconnected)
    ∧ version_material_convert_blend_mode matUnconnected = (matUnconnected, []) :=
  ⟨(C10_unconnected_socket_conversion).1 treeUnconnected 10 0 (by omega) (by decide),
   (C10_unconnected_socket_conversion).2.1 treeUnconnected (1/2) 1 10 rfl (by decide) (by decide),
   (C10_unconnected_socket_conversion).2.2 matUnconnected treeUnconnected 1 10 rfl rfl
     (by decide) (by decide) rfl (by decide) (by decide)⟩

/-! ## Claim C4 — the legacy socket-list conversion -/

theorem foldl_append_singleton {α β : Type} (l : List α) (f : α → β) (init : List β) :
    l.foldl (fun acc s => acc ++ [f s]) init = init ++ l.map f := by
  induction l generalizing init with
  | nil => simp
  | cons a rest ih => simp [ih]

/-- C4: with legacy flat lists and an empty hierarchical root, the
conversion builds the root item array as all legacy outputs in their
original order followed by all legacy inputs in their original order,
each new interface socket copying name, identifier, description, base
socket type (subtype idnames truncated to the base type), default
value, hide flags, attribute domain, default attribute name and
properties from the legacy socket, with the input/output role set from
the list the socket came from. -/
theorem C4_socket_list_conversion (nt : NtreeInterfaceState)
    (hroot : nt.root_items = []) :
    (versioning_convert_node_tree_socket_lists_to_interface nt).root_items
      = nt.outputs_legacy.map
          (fun s => InterfaceItem.socket (legacy_socket_move_to_interface s .SOCK_OUT))
        ++ nt.inputs_legacy.map
          (fun s => InterfaceItem.socket (legacy_socket_move_to_interface s .SOCK_IN))
    ∧ (∀ (s : LegacyBNodeSocket) (io : SockInOut),
        (legacy_socket_move_to_interface s io).name = s.name
        ∧ (legacy_socket_move_to_interface s io).identifier = s.identifier
        ∧ (legacy_socket_move_to_interface s io).description = s.description
        ∧ (legacy_socket_move_to_interface s io).socket_type
            = legacy_socket_idname_to_socket_type s.idname
        ∧ (legacy_socket_move_to_interface s io).socket_data = s.default_value
        ∧ (legacy_socket_move_to_interface s io).hide_value = s.hide_value
        ∧ (legacy_socket_move_to_interface s io).hide_in_modifier = s.hide_in_modifier
        ∧ (legacy_socket_move_to_interface s io).attribute_domain = s.attribute_domain
        ∧ (legacy_socket_move_to_interface s io).default_attribute_name
            = s.default_attribute_name
        ∧ (legacy_socket_move_to_interface s io).properties = s.prop)
    ∧ (∀ s : LegacyBNodeSocket,
        (legacy_socket_move_to_interface s .SOCK_IN).is_input = true
        ∧ (legacy_socket_move_to_interface s .SOCK_IN).is_output = false
        ∧ (legacy_socket_move_to_interface s .SOCK_OUT).is_input = false
        ∧ (legacy_socket_move_to_interface s .SOCK_OUT).is_output = true) := by
  refine ⟨?_, ?_, ?_⟩
  · simp [versioning_convert_node_tree_socket_lists_to_interface,
      foldl_append_singleton]
  · intro s io
    simp [legacy_socket_move_to_interface]
  · intro s
    simp [legacy_socket_move_to_interface]

/-- C4 witness: scenario 1 — `outputs = [B]`, `inputs = [A]`, empty
root gives root items `[B, A]`; the float-factor subtype idname of A is
truncated to the base type. -/
theorem C4_witness :
    ({ inputs_legacy := [legacyA], outputs_legacy := [legacyB],
       root_items := [] } : NtreeInterfaceState).root_items = []
    ∧ (versioning_convert_node_tree_socket_lists_to_interface
        { inputs_legacy := [legacyA], outputs_legacy := [legacyB], root_items := [] }).root_items
      = [InterfaceItem.socket (legacy_socket_move_to_interface legacyB .SOCK_OUT),
         InterfaceItem.socket (legacy_socket_move_to_interface legacyA .SOCK_IN)]
    ∧ (legacy_socket_move_to_interface legacyA .SOCK_IN).socket_type = "NodeSocketFloat" := by
  refine ⟨rfl, ?_, ?_⟩
  · exact (C4_socket_list_conversion
      { inputs_legacy := [legacyA], outputs_legacy := [legacyB], root_items := [] } rfl).1
  · have h := ((C4_socket_list_conversion
      { inputs_legacy := [legacyA], outputs_legacy := [legacyB], root_items := [] }
      rfl).2.1 legacyA .SOCK_IN).2.2.2.1
    rw [h]
    rfl



/-- When a socket item is inserted and the parent holds no panel below
the requested position, the constrained-position search keeps the
requested position. -/
theorem version_nodes_find_pos_socket (allow : Bool) (base : List InterfaceItem)
    (x : InterfaceItem) (q : Nat) (hx : itemIsPanel x = false)
    (h : allow = true ∨ ∀ i, i < q → isPanelAt base i = false) :
    version_nodes_find_valid_insert_position_for_item allow base x (q : Int) = (q : Int) := by
  unfold version_nodes_find_valid_insert_position_for_item
  cases allow with
  | true => simp
  | false =>
    have hnop : ∀ i, i < q → isPanelAt base i = false := by
      rcases h with h | h
      · exact absurd h (by simp)
      · exact h
    simp only [Bool.not_false, if_pos rfl, hx, Bool.false_eq_true, if_false]
    cases hfind : (List.range base.length).find?
        (fun (i : Nat) => decide ((i : Int) ≤ (q : Int)) && isPanelAt base i) with
    | none => simp [hfind]
    | some i =>
      have hprop := List.find?_some hfind
      simp only [Bool.and_eq_true, decide_eq_true_eq] at hprop
      obtain ⟨hile, hpan⟩ := hprop
      have hieq : i = q := by
        rcases Nat.lt_trichotomy i q with hlt | heq | hgt
        · rw [hnop i hlt] at hpan
          exact absurd hpan (by simp)
        · exact heq
        · omega
      simp [hfind, hieq]

/-- `version_nodes_insert_item` at an in-range position whose
constraint search is a fixpoint splices the item in at that
position. -/
theorem version_nodes_insert_item_at (allow : Bool) (base : List InterfaceItem)
    (x : InterfaceItem) (q : Nat) (hq : q ≤ base.length)
    (hpos : version_nodes_find_valid_insert_position_for_item allow base x (q : Int)
      = (q : Int)) :
    version_nodes_insert_item allow base x (q : Int)
      = base.take q ++ x :: base.drop q := by
  unfold version_nodes_insert_item
  rw [hpos]
  have hc : ((max (q : Int) 0) ⊓ (base.length : Int)).toNat = q := by omega
  simp only [hc]
  simp

/-- C3 (amended): splitting the dual-role socket at index `p` yields
the original at `p` with the input flag cleared, keeping its
identifier, and immediately after it a duplicate with the same display
name, the freshly minted identifier from the per-interface counter and
the output flag cleared — provided the parent allows sockets after
panels or has no panel child before index `p` (otherwise the
constrained insertion snaps the duplicate to just before the parent's
first panel child, as the counterexample shows). -/
theorem C3_split_socket (uid : Nat) (allow : Bool) (items : List InterfaceItem) (p : Nat)
    (S : InterfaceSocket)
    (hp : items.get? p = some (.socket S))
    (hin : S.is_input = true)
    (hout : S.is_output = true)
    (hok : allow = true ∨ ∀ i < p, isPanelAt items i = false)
    (hid : S.identifier ≠ "Socket_" ++ toString uid) :
    version_node_group_split_socket uid allow items p
      = (items.take p
          ++ InterfaceItem.socket { S with is_input := false }
          :: InterfaceItem.socket { S with identifier := "Socket_" ++ toString uid,
                                           is_output := false }
          :: items.drop (p + 1),
         uid + 1)
    ∧ ({ S with is_input := false } : InterfaceSocket).is_output = true
    ∧ ({ S with is_input := false } : InterfaceSocket).is_input = false
    ∧ ({ S with is_input := false } : InterfaceSocket).identifier = S.identifier
    ∧ ({ S with identifier := "Socket_" ++ toString uid, is_output := false }
        : InterfaceSocket).is_input = true
    ∧ ({ S with identifier := "Socket_" ++ toString uid, is_output := false }
        : InterfaceSocket).is_output = false
    ∧ ({ S with identifier := "Socket_" ++ toString uid, is_output := false }
        : InterfaceSocket).name = S.name
    ∧ ({ S with identifier := "Socket_" ++ toString uid, is_output := false }
        : InterfaceSocket).identifier
        ≠ ({ S with is_input := false } : InterfaceSocket).identifier := by
  have hlen : p < items.length := by
    by_contra hge
    rw [List.get?_eq_none.mpr (by omega)] at hp
    exact Option.noConfusion hp
  refine ⟨?_, by simp [hout], rfl, rfl, by simp [hin], rfl, rfl, Ne.symm hid⟩
  have hsplit : items.set p (InterfaceItem.socket { S with is_input := false })
      = items.take p ++ InterfaceItem.socket { S with is_input := false }
          :: items.drop (p + 1) :=
    List.set_eq_take_cons_drop _ hlen
  have hlen2 : (items.set p (InterfaceItem.socket { S with is_input := false })).length
      = items.length := by simp
  have htakelen : (items.take p).length = p := by
    simp [List.length_take]
    omega
  have htake : (items.set p (InterfaceItem.socket { S with is_input := false })).take (p + 1)
      = items.take p ++ [InterfaceItem.socket { S with is_input := false }] := by
    rw [hsplit, List.take_append_eq_append_take, htakelen]
    have h1 : items.take p = (items.take p).take (p + 1) := by
      rw [List.take_take]
      congr 1
      omega
    rw [← h1]
    simp
  have hdrop : (items.set p (InterfaceItem.socket { S with is_input := false })).drop (p + 1)
      = items.drop (p + 1) := by
    rw [hsplit, List.drop_append_eq_append_drop, htakelen]
    have h1 : (items.take p).drop (p + 1) = [] := by
      apply List.drop_eq_nil_of_le
      omega
    rw [h1]
    simp
  have hnopb : allow = true ∨ ∀ i, i < p + 1 →
      isPanelAt (items.set p (InterfaceItem.socket { S with is_input := false })) i
        = false := by
    rcases hok with h | h
    · exact Or.inl h
    · refine Or.inr (fun i hi => ?_)
      unfold isPanelAt
      rcases Nat.lt_trichotomy i p with hlt | heq | hgt
      · rw [List.get?_set_ne _ _ (by omega)]
        have := h i hlt
        unfold isPanelAt at this
        cases hgi : items.get? i with
        | none => simp [itemIsPanel]
        | some it => rw [hgi] at this; exact this
      · subst heq
        rw [List.get?_set_eq_of_lt _ hlen]
        simp [itemIsPanel]
      · omega
  have hpos := version_nodes_find_pos_socket allow
    (items.set p (InterfaceItem.socket { S with is_input := false }))
    (InterfaceItem.socket { S with identifier := "Socket_" ++ toString uid,
                                    is_output := false })
    (p + 1) rfl hnopb
  have hins := version_nodes_insert_item_at allow
    (items.set p (InterfaceItem.socket { S with is_input := false }))
    (InterfaceItem.socket { S with identifier := "Socket_" ++ toString uid,
                                    is_output := false })
    (p + 1) (by rw [hlen2]; omega) hpos
  simp only [version_node_group_split_socket, hp, version_copy_socket]
  rw [show ((p : Int) + 1) = (((p + 1 : Nat)) : Int) by push_cast; ring]
  rw [hins, htake, hdrop]
  simp


/-- C3 counterexample: with a panel child before the dual-role socket
in a parent that keeps sockets above panels, the duplicate is snapped
to index 0 — before the panel — and therefore does not sit immediately
after the original, which ends up last. -/
theorem C3_counterexample_panel_snap :
    (version_node_group_split_socket 1 false
        [InterfaceItem.panel false [], InterfaceItem.socket dualSocket] 1).1
      = [InterfaceItem.socket
           { dualSocket with identifier := "Socket_1", is_output := false },
         InterfaceItem.panel false [],
         InterfaceItem.socket { dualSocket with is_input := false }]
    ∧ (version_node_group_split_socket 1 false
        [InterfaceItem.panel false [], InterfaceItem.socket dualSocket] 1).2 = 2
    ∧ ∀ i < 3, ¬ (((version_node_group_split_socket 1 false
          [InterfaceItem.panel false [], InterfaceItem.socket dualSocket] 1).1.get? i
            = some (InterfaceItem.socket { dualSocket with is_input := false }))
        ∧ ((version_node_group_split_socket 1 false
          [InterfaceItem.panel false [], InterfaceItem.socket dualSocket] 1).1.get? (i + 1)
            = some (InterfaceItem.socket
                { dualSocket with identifier := "Socket_1", is_output := false }))) := by
  decide

/-- C3 witness: a dual-role socket preceded only by another socket is
split into the two adjacent items. -/
theorem C3_witness :
    version_node_group_split_socket 5 false
        [InterfaceItem.socket outOnlySocket, InterfaceItem.socket dualSocket] 1
      = ([InterfaceItem.socket outOnlySocket,
          InterfaceItem.socket { dualSocket with is_input := false },
          InterfaceItem.socket
            { dualSocket with identifier := "Socket_5", is_output := false }], 6)
    ∧ ({ dualSocket with identifier := "Socket_5", is_output := false }
        : InterfaceSocket).is_input = true
    ∧ ({ dualSocket with is_input := false } : InterfaceSocket).is_output = true := by
  have h := C3_split_socket 5 false
    [InterfaceItem.socket outOnlySocket, InterfaceItem.socket dualSocket] 1 dualSocket
    rfl rfl rfl (Or.inr (by decide)) (by decide)
  exact ⟨h.1, h.2.2.2.2.1, h.2.1⟩

/-! ## Claim C8 — the interface sort pass -/

theorem insertStable_perm {α : Type} (lt : α → α → Bool) (a : α) (l : List α) :
    List.Perm (insertStable lt a l) (a :: l) := by
  induction l with
  | nil => simp [insertStable]
  | cons b bs ih =>
    unfold insertStable
    by_cases h : lt a b
    · simp [h]
    · simp only [h, Bool.false_eq_true, if_false]
      exact (ih.cons b).trans (List.Perm.swap a b bs)

theorem sortStable_perm {α : Type} (lt : α → α → Bool) (l : List α) :
    List.Perm (sortStable lt l) l := by
  have aux : ∀ (l acc : List α),
      List.Perm (l.foldl (fun acc a => insertStable lt a acc) acc) (acc ++ l) := by
    intro l
    induction l with
    | nil => simp
    | cons a rest ih =>
      intro acc
      have h1 := ih (insertStable lt a acc)
      have h2 : List.Perm (insertStable lt a acc ++ rest) ((a :: acc) ++ rest) :=
        (insertStable_perm lt a acc).append_right rest
      have h3 : List.Perm ((a :: acc) ++ rest) (acc ++ a :: rest) := List.perm_middle.symm
      exact (h1.trans h2).trans h3
  simpa using aux l []

theorem mem_insertStable {α : Type} (lt : α → α → Bool) (a x : α) (l : List α) :
    x ∈ insertStable lt a l ↔ x = a ∨ x ∈ l :=
  (insertStable_perm lt a l).mem_iff.trans (by simp)

theorem insertStable_sorted {α : Type} (r : α → Nat) (lt : α → α → Bool)
    (hlt : ∀ a b, lt a b = decide (r a < r b)) (a : α) (l : List α)
    (h : List.Pairwise (fun x y => r x ≤ r y) l) :
    List.Pairwise (fun x y => r x ≤ r y) (insertStable lt a l) := by
  induction l with
  | nil => simp [insertStable]
  | cons b bs ih =>
    rw [List.pairwise_cons] at h
    obtain ⟨hb, hbs⟩ := h
    unfold insertStable
    by_cases hab : lt a b
    · rw [hab, if_pos rfl]
      rw [hlt] at hab
      have hab2 : r a < r b := of_decide_eq_true hab
      refine List.Pairwise.cons ?_ (List.Pairwise.cons hb hbs)
      intro x hx
      rcases List.mem_cons.mp hx with h | h
      · subst h
        omega
      · have := hb x h
        omega
    · simp only [hab, Bool.false_eq_true, if_false]
      rw [hlt] at hab
      have hab2 : ¬ (r a < r b) := of_decide_eq_false (Bool.of_not_eq_true hab)
      refine List.Pairwise.cons ?_ (ih hbs)
      intro x hx
      rcases (mem_insertStable lt a x bs).mp hx with h | h
      · subst h
        omega
      · exact hb x h

theorem sortStable_sorted {α : Type} (r : α → Nat) (lt : α → α → Bool)
    (hlt : ∀ a b, lt a b = decide (r a < r b)) (l : List α) :
    List.Pairwise (fun x y => r x ≤ r y) (sortStable lt l) := by
  have aux : ∀ (l acc : List α), List.Pairwise (fun x y => r x ≤ r y) acc →
      List.Pairwise (fun x y => r x ≤ r y)
        (l.foldl (fun acc a => insertStable lt a acc) acc) := by
    intro l
    induction l with
    | nil => exact fun acc h => h
    | cons a rest ih =>
      intro acc hacc
      exact ih _ (insertStable_sorted r lt hlt a acc hacc)
  exact aux l [] (by simp)

theorem insertStable_of_none_lt {α : Type} (lt : α → α → Bool) (a : α) (l : List α)
    (h : ∀ b ∈ l, lt a b = false) : insertStable lt a l = l ++ [a] := by
  induction l with
  | nil => rfl
  | cons b bs ih =>
    unfold insertStable
    rw [h b (by simp), if_neg (by simp)]
    rw [ih (fun c hc => h c (by simp [hc]))]
    simp

theorem sortStable_eq_of_sorted {α : Type} (r : α → Nat) (lt : α → α → Bool)
    (hlt : ∀ a b, lt a b = decide (r a < r b)) (l : List α)
    (h : List.Pairwise (fun x y => r x ≤ r y) l) : sortStable lt l = l := by
  have aux : ∀ (l acc : List α), List.Pairwise (fun x y => r x ≤ r y) (acc ++ l) →
      l.foldl (fun acc a => insertStable lt a acc) acc = acc ++ l := by
    intro l
    induction l with
    | nil => simp
    | cons a rest ih =>
      intro acc hacc
      have hstep : insertStable lt a acc = acc ++ [a] := by
        apply insertStable_of_none_lt
        intro b hb
        rw [hlt]
        have : r b ≤ r a := by
          have := (List.pairwise_append.mp hacc).2.2 b hb a (by simp)
          exact this
        simp
        omega
      calc (a :: rest).foldl (fun acc a => insertStable lt a acc) acc
          = rest.foldl (fun acc a => insertStable lt a acc) (insertStable lt a acc) := rfl
        _ = rest.foldl (fun acc a => insertStable lt a acc) (acc ++ [a]) := by rw [hstep]
        _ = (acc ++ [a]) ++ rest := by
            apply ih
            simpa using hacc
        _ = acc ++ a :: rest := by simp
  exact aux l [] (by simpa using h)

theorem sortStable_idem {α : Type} (r : α → Nat) (lt : α → α → Bool)
    (hlt : ∀ a b, lt a b = decide (r a < r b)) (l : List α) :
    sortStable lt (sortStable lt l) = sortStable lt l :=
  sortStable_eq_of_sorted r lt hlt _ (sortStable_sorted r lt hlt l)


theorem insertStable_filter_eq {α : Type} (r : α → Nat) (lt : α → α → Bool)
    (hlt : ∀ a b, lt a b = decide (r a < r b)) (v : Nat) (a : α) (l : List α)
    (hsorted : List.Pairwise (fun x y => r x ≤ r y) l) (ha : r a = v) :
    (insertStable lt a l).filter (fun x => r x == v)
      = l.filter (fun x => r x == v) ++ [a] := by
  induction l with
  | nil => simp [insertStable, List.filter, ha]
  | cons b bs ih =>
    rw [List.pairwise_cons] at hsorted
    obtain ⟨hb, hbs⟩ := hsorted
    unfold insertStable
    by_cases hab : lt a b
    · rw [hab, if_pos rfl]
      rw [hlt] at hab
      have hab2 : r a < r b := of_decide_eq_true hab
      have hnone : (b :: bs).filter (fun x => r x == v) = [] := by
        rw [List.filter_eq_nil]
        intro x hx
        have hge : r b ≤ r x := by
          rcases List.mem_cons.mp hx with h | h
          · subst h; omega
          · exact hb x h
        simp
        omega
      rw [List.filter_cons, hnone]
      simp [ha]
    · simp only [hab, Bool.false_eq_true, if_false]
      by_cases hbv : r b = v
      · simp only [List.filter, hbv, beq_self_eq_true, ih hbs]
        simp [List.filter_cons, hbv]
      · have : (r b == v) = false := by simp [hbv]
        simp [List.filter_cons, this, ih hbs]

theorem insertStable_filter_ne {α : Type} (r : α → Nat) (lt : α → α → Bool)
    (v : Nat) (a : α) (l : List α) (ha : r a ≠ v) :
    (insertStable lt a l).filter (fun x => r x == v)
      = l.filter (fun x => r x == v) := by
  induction l with
  | nil => simp [insertStable, List.filter_cons, ha]
  | cons b bs ih =>
    unfold insertStable
    by_cases hab : lt a b
    · rw [hab, if_pos rfl]
      simp [List.filter_cons, ha]
    · simp only [hab, Bool.false_eq_true, if_false]
      simp [List.filter_cons, ih]

theorem sortStable_filter {α : Type} (r : α → Nat) (lt : α → α → Bool)
    (hlt : ∀ a b, lt a b = decide (r a < r b)) (l : List α) (v : Nat) :
    (sortStable lt l).filter (fun x => r x == v) = l.filter (fun x => r x == v) := by
  have aux : ∀ (l acc : List α), List.Pairwise (fun x y => r x ≤ r y) acc →
      (l.foldl (fun acc a => insertStable lt a acc) acc).filter (fun x => r x == v)
        = acc.filter (fun x => r x == v) ++ l.filter (fun x => r x == v) := by
    intro l
    induction l with
    | nil => simp
    | cons a rest ih =>
      intro acc hacc
      have hstep := ih (insertStable lt a acc) (insertStable_sorted r lt hlt a acc hacc)
      show (rest.foldl (fun acc a => insertStable lt a acc)
          (insertStable lt a acc)).filter (fun x => r x == v) = _
      rw [hstep]
      by_cases hav : r a = v
      · rw [insertStable_filter_eq r lt hlt v a acc hacc hav]
        simp [List.filter_cons, hav]
      · rw [insertStable_filter_ne r lt v a acc hav]
        have : (r a == v) = false := by simp [hav]
        simp [List.filter_cons, this]
  simpa using aux l [] (by simp)

theorem item_compare_rank (a b : InterfaceItem) :
    item_compare a b = decide (itemRank a < itemRank b) := by
  cases a with
  | socket sa =>
    cases b with
    | socket sb =>
      cases hsa : sa.is_output <;> cases hsb : sb.is_output <;>
        simp [item_compare, itemRank, hsa, hsb]
    | panel fb lb =>
      cases hsa : sa.is_output <;> simp [item_compare, itemRank, hsa]
  | panel fa la =>
    cases b with
    | socket sb =>
      cases hsb : sb.is_output <;> simp [item_compare, itemRank, hsb]
    | panel fb lb => simp [item_compare, itemRank]

theorem itemRank_sort_rec (it : InterfaceItem) :
    itemRank (versioning_node_group_sort_sockets_recursive it) = itemRank it := by
  cases it <;> simp [versioning_node_group_sort_sockets_recursive, itemRank]

theorem sort_items_each_eq_map (l : List InterfaceItem) :
    sort_items_each l = l.map versioning_node_group_sort_sockets_recursive := by
  induction l with
  | nil => rfl
  | cons a rest ih => simp [sort_items_each, ih]

theorem sort_rec_idem_aux : ∀ (n : Nat) (it : InterfaceItem), sizeOf it ≤ n →
    versioning_node_group_sort_sockets_recursive
        (versioning_node_group_sort_sockets_recursive it)
      = versioning_node_group_sort_sockets_recursive it := by
  intro n
  induction n with
  | zero =>
    intro it hle
    exact absurd hle (by cases it <;> simp <;> omega)
  | succ n ih =>
    intro it hle
    cases it with
    | socket s => rfl
    | panel f children =>
      simp only [versioning_node_group_sort_sockets_recursive]
      have h1 : sort_items_each (sortStable item_compare (sort_items_each children))
          = sortStable item_compare (sort_items_each children) := by
        rw [sort_items_each_eq_map]
        have hfix : ∀ y ∈ sortStable item_compare (sort_items_each children),
            versioning_node_group_sort_sockets_recursive y = y := by
          intro y hy
          have hy2 : y ∈ sort_items_each children :=
            (sortStable_perm item_compare (sort_items_each children)).mem_iff.mp hy
          rw [sort_items_each_eq_map] at hy2
          obtain ⟨c, hc, rfl⟩ := List.mem_map.mp hy2
          apply ih
          have hlt := List.sizeOf_lt_of_mem hc
          have : sizeOf (InterfaceItem.panel f children) = 1 + sizeOf f + sizeOf children := by
            simp
          omega
        exact (List.map_congr_left hfix).trans (List.map_id _)
      rw [h1, sortStable_eq_of_sorted itemRank item_compare item_compare_rank _
        (sortStable_sorted itemRank item_compare item_compare_rank _)]

theorem sort_rec_idem (it : InterfaceItem) :
    versioning_node_group_sort_sockets_recursive
        (versioning_node_group_sort_sockets_recursive it)
      = versioning_node_group_sort_sockets_recursive it :=
  sort_rec_idem_aux (sizeOf it) it (le_refl _)

/-- C8: the sort pass permutes each panel's direct children into
nondecreasing rank order (output sockets, then input sockets, then
panels — so plain sockets precede nested panels and outputs precede
inputs), stably: within each rank the original relative order is kept
(the filter at each rank is unchanged); it recurses into nested panels;
and it is idempotent — running it a second time changes nothing. -/
theorem C8_sort_pass (f : Bool) (items : List InterfaceItem) :
    versioning_node_group_sort_sockets_recursive (.panel f items)
      = .panel f (sortStable item_compare (sort_items_each items))
    ∧ List.Perm (sortStable item_compare (sort_items_each items)) (sort_items_each items)
    ∧ List.Pairwise (fun a b => itemRank a ≤ itemRank b)
        (sortStable item_compare (sort_items_each items))
    ∧ (∀ v : Nat, (sortStable item_compare (sort_items_each items)).filter
          (fun x => itemRank x == v)
        = (sort_items_each items).filter (fun x => itemRank x == v))
    ∧ versioning_node_group_sort_sockets_recursive
        (versioning_node_group_sort_sockets_recursive (.panel f items))
      = versioning_node_group_sort_sockets_recursive (.panel f items) :=
  ⟨rfl,
   sortStable_perm item_compare (sort_items_each items),
   sortStable_sorted itemRank item_compare item_compare_rank _,
   fun v => sortStable_filter itemRank item_compare item_compare_rank _ v,
   sort_rec_idem _⟩

end Versioning400
